import Mathlib

/-
Verification of the Portfolio-Generator server and client logic.

The development shallowly embeds the TypeScript source:
  shared schema (zod portfolioSchema, projectSchema, socialMediaSchema,
  insertContactSchema and the relativeOrAbsoluteUrl refinement),
  server/storage.ts (MemStorage), server/routes.ts (the GET /api/portfolio/:id,
  POST /api/portfolio and POST /api/contact handlers),
  client ProjectsSection.tsx (handleDragEnd) and PortfolioPage.tsx
  (handleProjectsReorder), and the client contact form schema.

JavaScript platform primitives used by the source (parseInt, new URL, the zod
email check) are modelled as executable Lean functions over character lists.
-/

namespace PortfolioApp

/-! ### Character helpers and a model of JavaScript parseInt -/

/-- Decimal digit test, by code point. -/
def isDecDigit (c : Char) : Bool := 48 ≤ c.toNat && c.toNat ≤ 57

/-- Hexadecimal digit test, by code point. -/
def isHexDigit (c : Char) : Bool :=
  isDecDigit c || (97 ≤ c.toNat && c.toNat ≤ 102) || (65 ≤ c.toNat && c.toNat ≤ 70)

/-- Whitespace skipped by JavaScript parseInt (space, tab, LF, CR, VT, FF). -/
def jsWhitespace (c : Char) : Bool :=
  c.toNat == 32 || c.toNat == 9 || c.toNat == 10 || c.toNat == 13 ||
  c.toNat == 11 || c.toNat == 12

/-- Numeric value of a decimal digit character. -/
def digitVal (c : Char) : Nat := c.toNat - 48

/-- Numeric value of a hexadecimal digit character. -/
def hexDigitVal (c : Char) : Nat :=
  if isDecDigit c then c.toNat - 48
  else if 97 ≤ c.toNat then c.toNat - 87
  else c.toNat - 55

/-- Accumulating decimal value of a digit list. -/
def decValAux (acc : Nat) : List Char → Nat
  | [] => acc
  | c :: cs => decValAux (acc * 10 + digitVal c) cs

/-- Accumulating hexadecimal value of a digit list. -/
def hexValAux (acc : Nat) : List Char → Nat
  | [] => acc
  | c :: cs => hexValAux (acc * 16 + hexDigitVal c) cs

/-- Character for a decimal digit value below ten. -/
def digitChar : Nat → Char
  | 0 => '0' | 1 => '1' | 2 => '2' | 3 => '3' | 4 => '4'
  | 5 => '5' | 6 => '6' | 7 => '7' | 8 => '8' | _ => '9'

/-- Fuel-driven most-significant-first decimal digits of a natural number. -/
def toDecimalAux : Nat → Nat → List Char
  | 0, _ => []
  | fuel + 1, n =>
    if n < 10 then [digitChar n]
    else toDecimalAux fuel (n / 10) ++ [digitChar (n % 10)]

/-- Decimal string of a natural number, used to render ids into URL paths. -/
def decStr (n : Nat) : String := ⟨toDecimalAux (n + 1) n⟩

/-- True when the tail begins with the hexadecimal marker x or X. -/
def hexMark : List Char → Bool
  | x :: _ => x == 'x' || x == 'X'
  | [] => false

/-- Digit-prefix part of JavaScript parseInt after sign handling: longest
prefix of decimal digits, or of hexadecimal digits after a 0x marker; none
when no digit is found. -/
def parseIntBody (cs : List Char) : Option Nat :=
  match cs with
  | [] => none
  | c :: r =>
    if c == '0' && hexMark r then
      let ds := (r.drop 1).takeWhile isHexDigit
      if ds.isEmpty then none else some (hexValAux 0 ds)
    else if isDecDigit c then
      some (decValAux 0 ((c :: r).takeWhile isDecDigit))
    else none

/-- Model of JavaScript parseInt(string): skip leading whitespace, read an
optional sign, then parse the longest digit prefix; NaN becomes none. -/
def parseIntJS (s : String) : Option Int :=
  let cs := s.data.dropWhile jsWhitespace
  let sgn : Int := match cs.head? with
    | some c => if c == '-' then -1 else 1
    | none => 1
  let body := match cs.head? with
    | some c => if c == '-' || c == '+' then cs.drop 1 else cs
    | none => []
  (parseIntBody body).map (fun n => sgn * (n : Int))

/-! ### Model of the WHATWG URL constructor (new URL) -/

/-- ASCII alphabetic test. -/
def isAsciiAlpha (c : Char) : Bool :=
  (65 ≤ c.toNat && c.toNat ≤ 90) || (97 ≤ c.toNat && c.toNat ≤ 122)

/-- ASCII alphanumeric test. -/
def isAsciiAlphanum (c : Char) : Bool := isAsciiAlpha c || isDecDigit c

/-- C0 control or space, trimmed from the ends of a URL string. -/
def isC0OrSpace (c : Char) : Bool := c.toNat ≤ 32

/-- Tab and newline characters, removed everywhere in a URL string. -/
def isTabOrNewline (c : Char) : Bool := c.toNat == 9 || c.toNat == 10 || c.toNat == 13

/-- URL preprocessing: trim C0 controls and spaces at both ends, drop tabs
and newlines everywhere. -/
def urlPreprocess (cs : List Char) : List Char :=
  (((cs.dropWhile isC0OrSpace).reverse.dropWhile isC0OrSpace).reverse).filter
    (fun c => !isTabOrNewline c)

/-- Characters allowed after the first character of a URL scheme. -/
def isSchemeTail (c : Char) : Bool :=
  isAsciiAlphanum c || c == '+' || c == '-' || c == '.'

/-- Valid URL scheme: an ASCII letter followed by letters, digits, plus,
minus or dot. -/
def validScheme : List Char → Bool
  | [] => false
  | c :: cs => isAsciiAlpha c && cs.all isSchemeTail

/-- ASCII lowercase of a character. -/
def lowerChar (c : Char) : Char :=
  if 65 ≤ c.toNat && c.toNat ≤ 90 then Char.ofNat (c.toNat + 32) else c

/-- Split a character list at the first colon; none when no colon occurs. -/
def splitColon : List Char → Option (List Char × List Char)
  | [] => none
  | c :: cs =>
    if c == ':' then some ([], cs)
    else match splitColon cs with
      | none => none
      | some (a, b) => some (c :: a, b)

/-- Special URL schemes that require an authority component. -/
def isSpecialScheme (l : List Char) : Bool :=
  l == "http".data || l == "https".data || l == "ws".data ||
  l == "wss".data || l == "ftp".data

/-- Code points that may not occur in a URL host. -/
def forbiddenHostChar (c : Char) : Bool :=
  c.toNat == 0 || c.toNat == 9 || c.toNat == 10 || c.toNat == 13 || c.toNat == 32 ||
  c == '#' || c == '/' || c == '<' || c == '>' || c == '?' ||
  c == '@' || c == '[' || c == ']' || c == '^' || c == '|' || c == '\\'

/-- Part of the authority after the last at sign (drops userinfo). -/
def afterLastAt (cs : List Char) : List Char :=
  (cs.reverse.takeWhile (fun c => !(c == '@'))).reverse

/-- Split host-and-port at the last colon; none when no colon occurs. -/
def splitLastColon (cs : List Char) : List Char × Option (List Char) :=
  let after := cs.reverse.takeWhile (fun c => !(c == ':'))
  if after.length == cs.length then (cs, none)
  else (cs.take (cs.length - after.length - 1), some after.reverse)

/-- Host-and-port check for a special scheme: nonempty host without
forbidden code points, optional all-digit port. Bracketed IPv6 hosts are
accepted when nonempty. -/
def hostPortOk (hp : List Char) : Bool :=
  if hp.contains '[' then !hp.isEmpty
  else
    match splitLastColon hp with
    | (h, none) => !h.isEmpty && h.all (fun c => !forbiddenHostChar c)
    | (h, some p) => !h.isEmpty && h.all (fun c => !forbiddenHostChar c) && p.all isDecDigit

/-- Model of new URL(value) success on an absolute URL string: after
preprocessing, a valid scheme before a colon; special schemes additionally
need a wellformed nonempty host; other schemes take an opaque path. -/
def urlOk (s : String) : Bool :=
  let cs := urlPreprocess s.data
  match splitColon cs with
  | none => false
  | some (schemePart, rest) =>
    if !validScheme schemePart then false
    else
      let scheme := schemePart.map lowerChar
      if scheme == "file".data then true
      else if isSpecialScheme scheme then
        let afterSlashes := rest.dropWhile (fun c => c == '/' || c == '\\')
        let authority := afterSlashes.takeWhile
          (fun c => !(c == '/' || c == '\\' || c == '?' || c == '#'))
        hostPortOk (afterLastAt authority)
      else true

/-! ### Shared schema (zod): data shapes and validation refinements -/

/-- True when the string begins with a slash. -/
def startsWithSlash (v : String) : Bool :=
  match v.data with
  | c :: _ => c == '/'
  | [] => false

/-- The relativeOrAbsoluteUrl refinement of the shared schema: accept a
local path beginning with a slash, otherwise require new URL(value) to
succeed. -/
def relativeOrAbsoluteUrlOk (v : String) : Bool :=
  if startsWithSlash v then true
  else urlOk v

/-- SocialMedia value object of the shared schema. -/
structure SocialMedia where
  name : String
  url : String
deriving Repr, DecidableEq

/-- Project value object of the shared schema. -/
structure Project where
  title : String
  description : Option String
  image : Option String
  github : String
  order : Option Int
deriving Repr, DecidableEq

/-- PortfolioData value object of the shared schema. -/
structure PortfolioData where
  fullName : String
  title : String
  shortBio : String
  profilePicture : String
  detailedBio : String
  skills : List String
  projects : List Project
  socialMedia : List SocialMedia
deriving Repr, DecidableEq

/-- Refinement checks of socialMediaSchema: the url field must be an
absolute URL. -/
def socialMediaValid (m : SocialMedia) : Bool := urlOk m.url

/-- Refinement checks of projectSchema: an optional image accepted by
relativeOrAbsoluteUrl and a github field that is an absolute URL. -/
def projectValid (p : Project) : Bool :=
  (match p.image with
   | some v => relativeOrAbsoluteUrlOk v
   | none => true) && urlOk p.github

/-- Refinement checks of portfolioSchema: profilePicture accepted by
relativeOrAbsoluteUrl, every project and social media entry valid. -/
def portfolioValid (d : PortfolioData) : Bool :=
  relativeOrAbsoluteUrlOk d.profilePicture &&
  d.projects.all projectValid &&
  d.socialMedia.all socialMediaValid

/-! ### Contact message schemas -/

/-- Raw JSON body of a POST /api/contact request, with an optional
client-supplied createdAt field. -/
structure RawContact where
  name : Option String
  email : Option String
  subject : Option String
  message : Option String
  portfolioId : Option Int
  createdAt : Option String
deriving Repr, DecidableEq

/-- Typed value produced by insertContactSchema: name, email and message
are required, subject and portfolioId optional, createdAt not picked. -/
structure InsertContact where
  name : String
  email : String
  subject : Option String
  message : String
  portfolioId : Option Int
deriving Repr, DecidableEq

/-- Model of insertContactSchema.safeParse: createInsertSchema of the
contact_messages table picked to name, email, subject, message and
portfolioId; the three notNull picked columns are required, unknown keys
such as createdAt are stripped, and no minimum-length rule exists. -/
def insertContactParse (r : RawContact) : Option InsertContact :=
  match r.name, r.email, r.message with
  | some n, some e, some m => some ⟨n, e, r.subject, m, r.portfolioId⟩
  | _, _, _ => none

/-- Character allowed in the local part of the zod email check. -/
def emailLocalChar (c : Char) : Bool :=
  isAsciiAlphanum c || c == '_' || c.toNat == 39 || c == '+' || c == '-' || c == '.'

/-- Two adjacent dots somewhere in the list. -/
def hasDoubleDot : List Char → Bool
  | c :: d :: r => (c == '.' && d == '.') || hasDoubleDot (d :: r)
  | _ => false

/-- Local part of the zod email check: nonempty, allowed characters only,
no leading, trailing or doubled dot. -/
def emailLocalOk (cs : List Char) : Bool :=
  !cs.isEmpty && cs.all emailLocalChar &&
  (match cs.head? with
   | some c => !(c == '.')
   | none => false) &&
  (match cs.getLast? with
   | some c => !(c == '.')
   | none => false) &&
  !hasDoubleDot cs

/-- Domain label of the zod email check: alphanumeric first character then
alphanumeric or hyphen. -/
def emailLabelOk : List Char → Bool
  | [] => false
  | c :: r => isAsciiAlphanum c && r.all (fun d => isAsciiAlphanum d || d == '-')

/-- Final domain label of the zod email check: at least two letters. -/
def emailTldOk (cs : List Char) : Bool := 2 ≤ cs.length && cs.all isAsciiAlpha

/-- Split a character list on a separator character. -/
def splitOnChar (sep : Char) : List Char → List (List Char)
  | [] => [[]]
  | c :: r =>
    if c == sep then [] :: splitOnChar sep r
    else match splitOnChar sep r with
      | [] => [[c]]
      | g :: gs => (c :: g) :: gs

/-- Model of the zod v3 email regex used by z.string().email(). -/
def zodEmailOk (s : String) : Bool :=
  match splitOnChar '@' s.data with
  | [localPart, domain] =>
    emailLocalOk localPart &&
    (match (splitOnChar '.' domain).reverse with
     | tld :: restLabels => emailTldOk tld && !restLabels.isEmpty && restLabels.all emailLabelOk
     | [] => false)
  | _ => false

/-- Values of the client contact form (ContactSection.tsx). -/
structure ContactFormValues where
  name : String
  email : String
  subject : Option String
  message : String
deriving Repr, DecidableEq

/-- Model of the client contactFormSchema: name of at least two characters,
valid email, optional subject, message of at least ten characters. -/
def contactFormValid (v : ContactFormValues) : Bool :=
  decide (2 ≤ v.name.length) && zodEmailOk v.email && decide (10 ≤ v.message.length)

/-! ### MemStorage (server/storage.ts) -/

/-- User record of the data store. -/
structure UserRec where
  id : Int
  username : String
  password : String
deriving Repr, DecidableEq

/-- Fields of createUser. -/
structure InsertUser where
  username : String
  password : String
deriving Repr, DecidableEq

/-- Portfolio record of the data store. -/
structure PortfolioRec where
  id : Int
  userId : Int
  data : PortfolioData
deriving Repr, DecidableEq

/-- Fields of createPortfolio. -/
structure InsertPortfolio where
  userId : Int
  data : PortfolioData
deriving Repr, DecidableEq

/-- Stored contact message record. -/
structure ContactMessage where
  id : Int
  name : String
  email : String
  subject : Option String
  message : String
  createdAt : String
  portfolioId : Option Int
deriving Repr, DecidableEq

/-- In-memory store: the three Map fields are modelled as insertion-ordered
entry lists, together with the three id counters. -/
structure MemStorage where
  users : List UserRec
  portfolios : List PortfolioRec
  contactMessages : List ContactMessage
  currentUserId : Int
  currentPortfolioId : Int
  currentContactMessageId : Int
deriving Repr, DecidableEq

/-- Freshly constructed MemStorage: empty maps, counters at one. -/
def MemStorage.empty : MemStorage := ⟨[], [], [], 1, 1, 1⟩

/-- MemStorage.getUserByUsername: first user with the given username, in
insertion order. -/
def MemStorage.getUserByUsername (s : MemStorage) (username : String) : Option UserRec :=
  s.users.find? (fun u => u.username == username)

/-- MemStorage.createUser: assign the next user id and append. -/
def MemStorage.createUser (s : MemStorage) (u : InsertUser) : UserRec × MemStorage :=
  let id := s.currentUserId
  let rec0 : UserRec := ⟨id, u.username, u.password⟩
  (rec0, { s with users := s.users ++ [rec0], currentUserId := id + 1 })

/-- MemStorage.getPortfolio: Map lookup by portfolio id. -/
def MemStorage.getPortfolio (s : MemStorage) (id : Int) : Option PortfolioRec :=
  s.portfolios.find? (fun p => p.id == id)

/-- MemStorage.getPortfolioByUserId: first portfolio with the given userId,
in insertion order. -/
def MemStorage.getPortfolioByUserId (s : MemStorage) (userId : Int) : Option PortfolioRec :=
  s.portfolios.find? (fun p => p.userId == userId)

/-- MemStorage.createPortfolio: assign the next portfolio id and append. -/
def MemStorage.createPortfolio (s : MemStorage) (p : InsertPortfolio) : PortfolioRec × MemStorage :=
  let id := s.currentPortfolioId
  let rec0 : PortfolioRec := ⟨id, p.userId, p.data⟩
  (rec0, { s with portfolios := s.portfolios ++ [rec0], currentPortfolioId := id + 1 })

/-- MemStorage.updatePortfolio: replace the data field of the record stored
under the given id wholesale; none when the id is absent. -/
def MemStorage.updatePortfolio (s : MemStorage) (id : Int) (d : PortfolioData) :
    Option PortfolioRec × MemStorage :=
  match s.portfolios.find? (fun p => p.id == id) with
  | none => (none, s)
  | some p =>
    let updated : PortfolioRec := { p with data := d }
    (some updated,
     { s with portfolios := s.portfolios.map (fun q => if q.id == id then updated else q) })

/-- MemStorage.createContactMessage: assign the next id, stamp createdAt
with the current server time and append. -/
def MemStorage.createContactMessage (s : MemStorage) (m : InsertContact) (now : String) :
    ContactMessage × MemStorage :=
  let id := s.currentContactMessageId
  let rec0 : ContactMessage := ⟨id, m.name, m.email, m.subject, m.message, now, m.portfolioId⟩
  (rec0, { s with contactMessages := s.contactMessages ++ [rec0],
                  currentContactMessageId := id + 1 })

/-- Wellformedness of a store, maintained by the Map abstraction: portfolio
ids are nonnegative and below the id counter. -/
def MemStorage.WF (s : MemStorage) : Prop :=
  0 ≤ s.currentPortfolioId ∧ ∀ p ∈ s.portfolios, 0 ≤ p.id ∧ p.id < s.currentPortfolioId

/-! ### Route handlers (server/routes.ts) -/

/-- JSON response bodies produced by the handlers under verification. -/
inductive Body where
  | dataBody (d : PortfolioData)
  | msg (m : String)
  | idMsg (id : Option Int) (m : String)
deriving Repr, DecidableEq

/-- HTTP status and body of a handler response. -/
structure HttpResponse where
  status : Nat
  body : Body
deriving Repr, DecidableEq

/-- GET /api/portfolio/:id handler: parseInt the id parameter, 400 on NaN,
404 when no portfolio is stored under the id, otherwise 200 with the
portfolio data. -/
def getPortfolioHandler (s : MemStorage) (idParam : String) : HttpResponse :=
  match parseIntJS idParam with
  | none => ⟨400, .msg "Invalid portfolio ID"⟩
  | some pid =>
    match s.getPortfolio pid with
    | none => ⟨404, .msg "Portfolio not found"⟩
    | some p => ⟨200, .dataBody p.data⟩

/-- POST /api/portfolio handler: validate against portfolioSchema, lazily
provision the default user, then update the existing portfolio of that user
or create a new one. -/
def postPortfolioHandler (s : MemStorage) (body : PortfolioData) : HttpResponse × MemStorage :=
  if portfolioValid body then
    let userState :=
      match s.getUserByUsername "defaultuser" with
      | some u => (u, s)
      | none => s.createUser ⟨"defaultuser", "defaultpassword"⟩
    let user := userState.1
    let s1 := userState.2
    match s1.getPortfolioByUserId user.id with
    | some p =>
      let upd := s1.updatePortfolio p.id body
      (⟨200, .idMsg (upd.1.map (fun q => q.id)) "Portfolio updated successfully"⟩, upd.2)
    | none =>
      let created := s1.createPortfolio ⟨user.id, body⟩
      (⟨201, .idMsg (some created.1.id) "Portfolio created successfully"⟩, created.2)
  else
    (⟨400, .msg "Validation error"⟩, s)

/-- Validation-and-store part of the POST /api/contact handler, applied to
the request body after the createdAt overwrite. -/
def postContactCore (s : MemStorage) (contactData : RawContact) (now : String) :
    HttpResponse × MemStorage :=
  match insertContactParse contactData with
  | none => (⟨400, .msg "Validation error"⟩, s)
  | some ins =>
    let stored := s.createContactMessage ins now
    (⟨201, .idMsg (some stored.1.id) "Message sent successfully"⟩, stored.2)

/-- POST /api/contact handler: overwrite createdAt in the request body with
the current server time, validate with insertContactSchema, store and
answer 201; validation failure answers 400 and stores nothing. -/
def postContactHandler (s : MemStorage) (body : RawContact) (now : String) :
    HttpResponse × MemStorage :=
  postContactCore s { body with createdAt := some now } now

/-- Sequential execution of POST /api/portfolio handlers over a list of
payloads. -/
def postMany (s : MemStorage) : List PortfolioData → MemStorage
  | [] => s
  | d :: ds => postMany (postPortfolioHandler s d).2 ds

/-! ### Client drag reorder (ProjectsSection.tsx, PortfolioPage.tsx) -/

/-- Drag-end event data: source index and, when dropped inside the list,
the destination index. -/
structure DropResult where
  sourceIndex : Nat
  destinationIndex : Option Nat
deriving Repr, DecidableEq

/-- The two splice calls of handleDragEnd: remove the element at the source
index and insert it at the destination index. -/
def jsMove (l : List Project) (i j : Nat) : List Project :=
  match l[i]? with
  | none => l
  | some x => (l.eraseIdx i).insertIdx j x

/-- The map((project, index) => ...) of handleDragEnd, which overwrites each
order field with the current index, counting from n. -/
def reassignOrdersFrom : Nat → List Project → List Project
  | _, [] => []
  | n, p :: ps => { p with order := some (n : Int) } :: reassignOrdersFrom (n + 1) ps

/-- Order reassignment starting at index zero. -/
def reassignOrders (l : List Project) : List Project := reassignOrdersFrom 0 l

/-- handleDragEnd of ProjectsSection: when the drop has no destination or
did not move, leave the displayed list alone and skip the reorder callback;
otherwise splice-move the card, reassign order values and hand the new list
to both setProjects and onProjectsReorder. The first component is the
displayed list after the event, the second the persisted list if any. -/
def handleDragEnd (projects : List Project) (r : DropResult) :
    List Project × Option (List Project) :=
  match r.destinationIndex with
  | none => (projects, none)
  | some j =>
    if j == r.sourceIndex then (projects, none)
    else
      let u := reassignOrders (jsMove projects r.sourceIndex j)
      (u, some u)

/-- A project without its order field, for statements about relative order. -/
def payloadOf (p : Project) : Project := { p with order := none }

/-! ### GitHub aggregation -/

/-- Repository record as returned by the GitHub repository list, with the
topic list of its detail record merged in (an empty list when the detail
fetch failed). -/
structure GitHubRepo where
  name : String
  description : Option String
  fork : Bool
  isPrivate : Bool
  topics : List String
  htmlUrl : String
deriving Repr, DecidableEq

/-- Comma-and-space join of a string list. -/
def joinComma : List String → String
  | [] => ""
  | [t] => t
  | t :: ts => t ++ ", " ++ joinComma ts

/-- Modelled from the spec: the description builder of the GitHub
aggregator endpoint, whose server code is not part of the sources. Start
from the repository description if any, append a Technologies line built
from the topics (joined to an existing description with a blank line, or
standalone), and fall back to a synthesized sentence when still empty. -/
def buildDescription (username : String) (r : GitHubRepo) : String :=
  let base := match r.description with
    | some d => d
    | none => ""
  let tech := if r.topics.isEmpty then "" else "Technologies: " ++ joinComma r.topics
  let combined :=
    if base == "" then tech
    else if tech == "" then base
    else base ++ "\n\n" ++ tech
  if combined == "" then "A project repository by " ++ username else combined

/-- Modelled from the spec: the title mapping of the GitHub aggregator,
replacing hyphens and underscores in the repository name by spaces. -/
def repoTitle (name : String) : String :=
  ⟨name.data.map (fun c => if c == '-' || c == '_' then ' ' else c)⟩

/-- Modelled from the spec: the generated social-preview-image URL keyed by
username and repository name. -/
def socialPreviewUrl (username repoName : String) : String :=
  "https://opengraph.githubassets.com/1/" ++ username ++ "/" ++ repoName

/-- Modelled from the spec: the Project-shaped record built for one
surviving repository. -/
def toProject (username : String) (r : GitHubRepo) : Project :=
  { title := repoTitle r.name
    description := some (buildDescription username r)
    image := some (socialPreviewUrl username r.name)
    github := r.htmlUrl
    order := none }

/-- Modelled from the spec: the GitHub aggregation over a fetched
repository list, whose server endpoint is not part of the sources. Forked
and private repositories are filtered out and each survivor is mapped to a
Project-shaped record, keeping the API order. -/
def aggregateProjects (username : String) (repos : List GitHubRepo) : List Project :=
  (repos.filter (fun r => !r.fork && !r.isPrivate)).map (toProject username)

/-! ### Helper lemmas: digit strings and parseInt -/

theorem takeWhile_eq_self_of_all {p : Char → Bool} :
    ∀ {l : List Char}, (∀ c ∈ l, p c = true) → l.takeWhile p = l := by
  intro l h
  induction l with
  | nil => rfl
  | cons c cs ih =>
    simp [List.takeWhile_cons, h c (List.mem_cons_self c cs),
      ih (fun x hx => h x (List.mem_cons_of_mem _ hx))]

theorem decValAux_append (a : Nat) (xs ys : List Char) :
    decValAux a (xs ++ ys) = decValAux (decValAux a xs) ys := by
  induction xs generalizing a with
  | nil => rfl
  | cons c cs ih => exact ih (a * 10 + digitVal c)

theorem digitChar_isDec (n : Nat) (h : n < 10) : isDecDigit (digitChar n) = true := by
  interval_cases n <;> decide

theorem digitVal_digitChar (n : Nat) (h : n < 10) : digitVal (digitChar n) = n := by
  interval_cases n <;> decide

theorem toDecimalAux_spec :
    ∀ fuel n, n < fuel →
      (∀ c ∈ toDecimalAux fuel n, isDecDigit c = true) ∧
      toDecimalAux fuel n ≠ [] ∧
      ∀ a, decValAux a (toDecimalAux fuel n) =
        a * 10 ^ (toDecimalAux fuel n).length + n := by
  intro fuel
  induction fuel with
  | zero => intro n h; omega
  | succ fuel ih =>
    intro n h
    by_cases h10 : n < 10
    · refine ⟨?_, ?_, ?_⟩
      · intro c hc
        simp only [toDecimalAux, if_pos h10, List.mem_singleton] at hc
        rw [hc]; exact digitChar_isDec n h10
      · simp [toDecimalAux, h10]
      · intro a
        simp only [toDecimalAux, if_pos h10, List.length_singleton]
        show decValAux (a * 10 + digitVal (digitChar n)) [] = a * 10 ^ 1 + n
        rw [digitVal_digitChar n h10]
        show a * 10 + n = a * 10 ^ 1 + n
        ring
    · have hdiv : n / 10 < fuel := by
        have := Nat.div_lt_self (by omega : 0 < n) (by omega : 1 < 10)
        omega
      obtain ⟨hmem, hne, hval⟩ := ih (n / 10) hdiv
      have hmod : n % 10 < 10 := Nat.mod_lt _ (by omega)
      refine ⟨?_, ?_, ?_⟩
      · intro c hc
        simp only [toDecimalAux, if_neg h10, List.mem_append, List.mem_singleton] at hc
        rcases hc with hc | hc
        · exact hmem c hc
        · rw [hc]; exact digitChar_isDec _ hmod
      · simp [toDecimalAux, h10]
      · intro a
        simp only [toDecimalAux, if_neg h10]
        rw [decValAux_append, hval a, List.length_append, List.length_singleton]
        show (a * 10 ^ (toDecimalAux fuel (n / 10)).length + n / 10) * 10 +
            digitVal (digitChar (n % 10)) =
          a * 10 ^ ((toDecimalAux fuel (n / 10)).length + 1) + n
        rw [digitVal_digitChar _ hmod, pow_succ]
        generalize (10 : Nat) ^ (toDecimalAux fuel (n / 10)).length = X
        conv_rhs => rw [← Nat.div_add_mod n 10]
        ring

theorem parseIntBody_digits (ds : List Char) (hne : ds ≠ [])
    (hd : ∀ c ∈ ds, isDecDigit c = true) :
    parseIntBody ds = some (decValAux 0 ds) := by
  cases ds with
  | nil => exact absurd rfl hne
  | cons c r =>
    have hc : isDecDigit c = true := hd c (by simp)
    have hx : (c == '0' && hexMark r) = false := by
      cases r with
      | nil => simp [hexMark]
      | cons d t =>
        have hdd : isDecDigit d = true := hd d (by simp)
        have h1 : (d == 'x') = false := by
          refine beq_eq_false_iff_ne.mpr (fun he => ?_)
          subst he; exact absurd hdd (by decide)
        have h2 : (d == 'X') = false := by
          refine beq_eq_false_iff_ne.mpr (fun he => ?_)
          subst he; exact absurd hdd (by decide)
        simp [hexMark, h1, h2]
    rw [parseIntBody, hx]
    simp only [Bool.false_eq_true, if_false, hc, if_true]
    rw [takeWhile_eq_self_of_all hd]

theorem parseIntJS_decStr (n : Nat) : parseIntJS (decStr n) = some (n : Int) := by
  obtain ⟨hmem, hne, hval⟩ := toDecimalAux_spec (n + 1) n (by omega)
  have hdata : (decStr n).data = toDecimalAux (n + 1) n := rfl
  cases hcase : toDecimalAux (n + 1) n with
  | nil => exact absurd hcase hne
  | cons c r =>
    have hc : isDecDigit c = true := hmem c (by rw [hcase]; simp)
    have hws : jsWhitespace c = false := by
      simp only [isDecDigit, Bool.and_eq_true, decide_eq_true_eq] at hc
      simp only [jsWhitespace, Bool.or_eq_false_iff, beq_eq_false_iff_ne]
      omega
    have hminus : (c == '-') = false := by
      refine beq_eq_false_iff_ne.mpr (fun he => ?_)
      subst he; exact absurd hc (by decide)
    have hplus : (c == '+') = false := by
      refine beq_eq_false_iff_ne.mpr (fun he => ?_)
      subst he; exact absurd hc (by decide)
    have hbody : parseIntBody (c :: r) = some (decValAux 0 (c :: r)) := by
      refine parseIntBody_digits _ (by simp) ?_
      rw [← hcase]; exact hmem
    have hv0 : decValAux 0 (c :: r) = n := by
      have := hval 0
      rw [hcase] at this
      simpa using this
    rw [parseIntJS]
    rw [hdata, hcase]
    simp only [List.dropWhile_cons, hws, Bool.false_eq_true, if_false,
      List.head?_cons, hminus, hplus, Bool.or_self, if_false, hbody, hv0,
      Option.map_some]
    simp

/-! ### Helper lemmas: store lookups -/

theorem find?_append_right {α : Type} (p : α → Bool) (l : List α) (x : α)
    (hl : ∀ q ∈ l, p q = false) (hx : p x = true) :
    (l ++ [x]).find? p = some x := by
  induction l with
  | nil => simp [List.find?, hx]
  | cons a t ih =>
    have ha := hl a (by simp)
    rw [List.cons_append, List.find?_cons, ha]
    exact ih (fun q hq => hl q (by simp [hq]))

theorem find?_map_update {α : Type} (key : α → Int) (k : Int) (u : α) (hu : key u = k) :
    ∀ l : List α, (l.find? (fun q => key q == k)).isSome →
      (l.map (fun q => if key q == k then u else q)).find? (fun q => key q == k) = some u := by
  intro l
  induction l with
  | nil => simp
  | cons a t ih =>
    intro hsome
    by_cases ha : (key a == k) = true
    · rw [List.map_cons, if_pos ha, List.find?_cons]
      have : (key u == k) = true := by rw [hu]; exact beq_self_eq_true k
      rw [this]
    · rw [List.map_cons, if_neg ha, List.find?_cons]
      rw [Bool.not_eq_true] at ha
      rw [ha]
      rw [List.find?_cons] at hsome
      rw [ha] at hsome
      exact ih hsome

/-- The user-provision step of the POST /api/portfolio handler never
touches the portfolio table or its id counter. -/
theorem userStep_preserves (s : MemStorage) :
    (match s.getUserByUsername "defaultuser" with
      | some u => (u, s)
      | none => s.createUser ⟨"defaultuser", "defaultpassword"⟩).2.portfolios = s.portfolios ∧
    (match s.getUserByUsername "defaultuser" with
      | some u => (u, s)
      | none => s.createUser ⟨"defaultuser", "defaultpassword"⟩).2.currentPortfolioId =
      s.currentPortfolioId := by
  cases s.getUserByUsername "defaultuser" <;> exact ⟨rfl, rfl⟩

/-- Core roundtrip of the upsert path: a valid payload posted against a
wellformed store is answered with a portfolio id under which the store now
holds exactly the submitted data. -/
theorem post_roundtrip (s : MemStorage) (d : PortfolioData)
    (hwf : s.WF) (hv : portfolioValid d = true) :
    ∃ st pid m s2 uid, postPortfolioHandler s d = (⟨st, .idMsg (some pid) m⟩, s2) ∧
      0 ≤ pid ∧ s2.getPortfolio pid = some ⟨pid, uid, d⟩ := by
  obtain ⟨hwf1, hwf2⟩ := hwf
  rw [postPortfolioHandler, if_pos hv]
  obtain ⟨hport, hcnt⟩ := userStep_preserves s
  generalize hus : (match s.getUserByUsername "defaultuser" with
      | some u => (u, s)
      | none => s.createUser ⟨"defaultuser", "defaultpassword"⟩) = userState at hport hcnt
  obtain ⟨user, s1⟩ := userState
  simp only at hport hcnt ⊢
  cases hp : s1.getPortfolioByUserId user.id with
  | some p =>
    have hpmem : p ∈ s1.portfolios := List.mem_of_find?_eq_some hp
    have hfind : (s1.portfolios.find? (fun q => q.id == p.id)).isSome := by
      rw [List.find?_isSome]
      exact ⟨p, hpmem, beq_self_eq_true p.id⟩
    obtain ⟨q, hq⟩ := Option.isSome_iff_exists.mp hfind
    have hqid : q.id = p.id := by
      have := List.find?_some hq
      exact beq_iff_eq.mp this
    have hupd : s1.updatePortfolio p.id d = (some { q with data := d }, { s1 with portfolios := s1.portfolios.map (fun x => if x.id == p.id then { q with data := d } else x) }) := by
      unfold MemStorage.updatePortfolio
      rw [hq]
    refine ⟨200, p.id, "Portfolio updated successfully", (s1.updatePortfolio p.id d).2,
      q.userId, ?_, ?_, ?_⟩
    · show ((⟨200, .idMsg ((s1.updatePortfolio p.id d).1.map (fun q => q.id))
          "Portfolio updated successfully"⟩ : HttpResponse),
        (s1.updatePortfolio p.id d).2) = _
      rw [hupd]
      simp [hqid]
    · have := hwf2 p (by rw [← hport]; exact hpmem)
      exact this.1
    · rw [hupd, MemStorage.getPortfolio]
      simp only
      have hmap := find?_map_update (fun x : PortfolioRec => x.id) p.id
        { q with data := d } hqid s1.portfolios (by rw [hq]; rfl)
      rw [hmap]
      have : ({ q with data := d } : PortfolioRec) = ⟨p.id, q.userId, d⟩ := by
        cases q
        simp_all
      rw [this]
  | none =>
    refine ⟨201, s1.currentPortfolioId, "Portfolio created successfully",
      (s1.createPortfolio ⟨user.id, d⟩).2, user.id, rfl, ?_, ?_⟩
    · rw [hcnt]; exact hwf1
    · show (s1.portfolios ++ ([⟨s1.currentPortfolioId, user.id, d⟩] : List PortfolioRec)).find?
        (fun x : PortfolioRec => x.id == s1.currentPortfolioId) =
        some (⟨s1.currentPortfolioId, user.id, d⟩ : PortfolioRec)
      refine find?_append_right _ _ _ ?_ (beq_self_eq_true _)
      intro x hx
      have hlt := (hwf2 x (by rw [← hport]; exact hx)).2
      rw [← hcnt] at hlt
      exact beq_eq_false_iff_ne.mpr (by omega)

/-! ### Concrete sample data -/

/-- Sample payload accepted by portfolioSchema. -/
def dEx : PortfolioData :=
  { fullName := "Jane Roe", title := "Developer", shortBio := "short bio",
    profilePicture := "/uploads/abc.png", detailedBio := "long bio",
    skills := ["ts"], projects := [], socialMedia := [] }

/-- A second, different payload accepted by portfolioSchema. -/
def dEx2 : PortfolioData := { dEx with fullName := "John Roe", skills := [] }

/-- Sample project accepted by projectSchema. -/
def projEx : Project :=
  ⟨"Tool", none, some "/uploads/s.png", "https://github.com/u/tool", none⟩

/-- Sample payload with one project. -/
def dExP : PortfolioData := { dEx with projects := [projEx] }

/-- A store already holding the default user and one portfolio. -/
def storeWithOne : MemStorage :=
  ⟨[⟨1, "defaultuser", "defaultpassword"⟩], [⟨1, 1, dEx⟩], [], 2, 2, 1⟩

/-- Contact request body with a nine-character message. -/
def rawShortMessage : RawContact :=
  ⟨some "John Doe", some "john@example.com", none, some "123456789", none, none⟩

/-- Contact request body carrying a client-supplied createdAt value. -/
def rawWithClientDate : RawContact :=
  ⟨some "John Doe", some "john@example.com", none, some "hello there people", none,
   some "1999-01-01T00:00:00.000Z"⟩

/-- The same contact request body without the client-supplied createdAt. -/
def rawNoClientDate : RawContact := { rawWithClientDate with createdAt := none }

/-! ### Claim C1 -/

/-- Claim C1: for every PortfolioData payload accepted by the portfolio
schema, executing the POST /api/portfolio handler and then the GET
/api/portfolio/:id handler with the id returned by the POST yields a 200
response whose body is structurally equal to the submitted payload. -/
theorem postThenGet_roundtrip (s : MemStorage) (d : PortfolioData)
    (hwf : s.WF) (hv : portfolioValid d = true) :
    ∃ st pid m s2, postPortfolioHandler s d = (⟨st, .idMsg (some pid) m⟩, s2) ∧
      getPortfolioHandler s2 (decStr pid.toNat) = ⟨200, .dataBody d⟩ := by
  obtain ⟨st, pid, m, s2, uid, heq, hpos, hget⟩ := post_roundtrip s d hwf hv
  refine ⟨st, pid, m, s2, heq, ?_⟩
  unfold getPortfolioHandler
  rw [parseIntJS_decStr pid.toNat, Int.toNat_of_nonneg hpos]
  simp [hget]

theorem postThenGet_roundtrip_witness :
    MemStorage.empty.WF ∧ portfolioValid dEx = true ∧
    ∃ st pid m s2, postPortfolioHandler MemStorage.empty dEx = (⟨st, .idMsg (some pid) m⟩, s2) ∧
      getPortfolioHandler s2 (decStr pid.toNat) = ⟨200, .dataBody dEx⟩ :=
  ⟨⟨by decide, by simp [MemStorage.empty]⟩, by decide,
   postThenGet_roundtrip MemStorage.empty dEx
     ⟨by decide, by simp [MemStorage.empty]⟩ (by decide)⟩

/-! ### Claim C3 -/

/-- A forked repository. -/
def repoFork : GitHubRepo := ⟨"alpha", none, true, false, [], "https://github.com/u/alpha"⟩

/-- A private repository. -/
def repoPriv : GitHubRepo := ⟨"beta", none, false, true, [], "https://github.com/u/beta"⟩

/-- A public original repository with an empty description and two topics. -/
def repoFooBar : GitHubRepo :=
  ⟨"foo-bar", some "", false, false, ["go", "cli"], "https://github.com/u/foo-bar"⟩

/-- Claim C3: for a user whose repository list is a fork, a private
repository and foo-bar with empty description and topics go and cli, the
aggregation returns exactly one project titled foo bar with description
Technologies: go, cli; forked and private repositories are excluded. -/
theorem github_aggregation_example :
    aggregateProjects "u" [repoFork, repoPriv, repoFooBar] =
      [{ title := "foo bar", description := some "Technologies: go, cli",
         image := some (socialPreviewUrl "u" "foo-bar"),
         github := "https://github.com/u/foo-bar", order := none }] := by
  decide

/-! ### Claim C4 -/

/-- Claim C4: profilePicture and project image validation accepts exactly
the strings that begin with a slash or parse as an absolute URL, and
rejects every other string; the three spec examples behave as stated, and
portfolioSchema applies this rule to profilePicture and to every project
image. -/
theorem relativeOrAbsoluteUrl_characterization :
    (∀ v : String, relativeOrAbsoluteUrlOk v = (startsWithSlash v || urlOk v)) ∧
    relativeOrAbsoluteUrlOk "/uploads/abc.png" = true ∧
    relativeOrAbsoluteUrlOk "https://example.com/x.png" = true ∧
    relativeOrAbsoluteUrlOk "not-a-url" = false ∧
    (∀ d : PortfolioData, portfolioValid d = true →
      relativeOrAbsoluteUrlOk d.profilePicture = true) ∧
    (∀ d : PortfolioData, portfolioValid d = true → ∀ p ∈ d.projects,
      ∀ img, p.image = some img → relativeOrAbsoluteUrlOk img = true) := by
  refine ⟨?_, by decide, by decide, by decide, ?_, ?_⟩
  · intro v
    rw [relativeOrAbsoluteUrlOk]
    cases h : startsWithSlash v <;> simp [h]
  · intro d hv
    rw [portfolioValid] at hv
    exact (Bool.and_eq_true_iff.mp (Bool.and_eq_true_iff.mp hv).1).1
  · intro d hv p hp img himg
    rw [portfolioValid] at hv
    have hall := (Bool.and_eq_true_iff.mp (Bool.and_eq_true_iff.mp hv).1).2
    have hpv := List.all_eq_true.mp hall p hp
    rw [projectValid] at hpv
    have h1 := (Bool.and_eq_true_iff.mp hpv).1
    rw [himg] at h1
    exact h1

theorem relativeOrAbsoluteUrl_characterization_witness :
    relativeOrAbsoluteUrlOk dExP.profilePicture = true ∧
    relativeOrAbsoluteUrlOk "/uploads/s.png" = true :=
  ⟨relativeOrAbsoluteUrl_characterization.2.2.2.2.1 dExP (by decide),
   relativeOrAbsoluteUrl_characterization.2.2.2.2.2 dExP (by decide) projEx (by decide)
     "/uploads/s.png" (by decide)⟩

/-! ### Claim C5 -/

/-- Claim C5 (amended): the minimum-length rules (name at least two
characters, message at least ten) are enforced only by the client contact
form schema; the server insertContactSchema imposes no length rule, so any
request carrying name, email and message strings is stored and answered
201 whatever the lengths. -/
theorem contact_minLength_client_only (s : MemStorage) (b : RawContact) (now : String)
    (n e m : String) (hn : b.name = some n) (he : b.email = some e)
    (hm : b.message = some m) :
    ((postContactHandler s b now).1.status = 201 ∧
     (postContactHandler s b now).2.contactMessages.length = s.contactMessages.length + 1) ∧
    (∀ v : ContactFormValues, contactFormValid v = true →
      2 ≤ v.name.length ∧ 10 ≤ v.message.length) ∧
    (∀ v : ContactFormValues, v.message.length < 10 → contactFormValid v = false) ∧
    (∀ v : ContactFormValues, v.name.length < 2 → contactFormValid v = false) ∧
    contactFormValid ⟨"John Doe", "john@example.com", none, "0123456789"⟩ = true := by
  refine ⟨?_, ?_, ?_, ?_, by decide⟩
  · have hparse : insertContactParse { b with createdAt := some now } =
        some ⟨n, e, b.subject, m, b.portfolioId⟩ := by
      unfold insertContactParse
      show (match b.name, b.email, b.message with
        | some n, some e, some m => some (⟨n, e, b.subject, m, b.portfolioId⟩ : InsertContact)
        | _, _, _ => none) = _
      rw [hn, he, hm]
    have hrun : postContactHandler s b now =
        (⟨201, .idMsg (some s.currentContactMessageId) "Message sent successfully"⟩,
         { s with contactMessages := s.contactMessages ++ [⟨s.currentContactMessageId, n, e, b.subject, m, now, b.portfolioId⟩], currentContactMessageId := s.currentContactMessageId + 1 }) := by
      unfold postContactHandler postContactCore
      rw [hparse]
      rfl
    rw [hrun]
    simp
  · intro v hv
    unfold contactFormValid at hv
    simp only [Bool.and_eq_true, decide_eq_true_eq] at hv
    exact ⟨hv.1.1, hv.2⟩
  · intro v hlt
    cases hres : contactFormValid v with
    | false => rfl
    | true =>
      unfold contactFormValid at hres
      simp only [Bool.and_eq_true, decide_eq_true_eq] at hres
      obtain ⟨-, h2⟩ := hres
      omega
  · intro v hlt
    cases hres : contactFormValid v with
    | false => rfl
    | true =>
      unfold contactFormValid at hres
      simp only [Bool.and_eq_true, decide_eq_true_eq] at hres
      obtain ⟨⟨h1, -⟩, -⟩ := hres
      omega

/-- Claim C5 counterexample: a POST /api/contact request whose message has
nine characters is accepted by the server with status 201 and stored,
rather than rejected with 400. -/
theorem contact_nine_chars_accepted_counterexample :
    ("123456789" : String).length = 9 ∧
    (postContactHandler MemStorage.empty rawShortMessage "2024-01-01T00:00:00.000Z").1.status = 201 ∧
    (postContactHandler MemStorage.empty rawShortMessage
      "2024-01-01T00:00:00.000Z").2.contactMessages.length = 1 := by
  decide

theorem contact_minLength_client_only_witness :
    ((postContactHandler MemStorage.empty rawShortMessage "2024-01-01T00:00:00.000Z").1.status = 201 ∧
     (postContactHandler MemStorage.empty rawShortMessage
       "2024-01-01T00:00:00.000Z").2.contactMessages.length =
       MemStorage.empty.contactMessages.length + 1) ∧
    (∀ v : ContactFormValues, contactFormValid v = true →
      2 ≤ v.name.length ∧ 10 ≤ v.message.length) ∧
    (∀ v : ContactFormValues, v.message.length < 10 → contactFormValid v = false) ∧
    (∀ v : ContactFormValues, v.name.length < 2 → contactFormValid v = false) ∧
    contactFormValid ⟨"John Doe", "john@example.com", none, "0123456789"⟩ = true :=
  contact_minLength_client_only MemStorage.empty rawShortMessage "2024-01-01T00:00:00.000Z"
    "John Doe" "john@example.com" "123456789" rfl rfl rfl

/-! ### Claim C6 -/

/-- Claim C6: the stored createdAt of a contact message is the server
timestamp at handling time; a client-supplied createdAt has no influence,
so two requests equal up to their createdAt field produce identical
results, and every newly stored message carries the server time. -/
theorem contact_createdAt_server_stamped (s : MemStorage) (b1 b2 : RawContact) (now : String)
    (h : { b1 with createdAt := none } = { b2 with createdAt := none }) :
    postContactHandler s b1 now = postContactHandler s b2 now ∧
    ∀ c ∈ (postContactHandler s b1 now).2.contactMessages,
      c ∈ s.contactMessages ∨ c.createdAt = now := by
  have hsame : ({ b1 with createdAt := some now } : RawContact) =
      { b2 with createdAt := some now } := by
    cases b1; cases b2
    simp only [RawContact.mk.injEq] at h ⊢
    simp_all
  constructor
  · unfold postContactHandler
    rw [hsame]
  · intro c hc
    unfold postContactHandler postContactCore at hc
    cases hparse : insertContactParse { b1 with createdAt := some now } with
    | none =>
      rw [hparse] at hc
      exact Or.inl hc
    | some ins =>
      rw [hparse] at hc
      have hc2 : c ∈ s.contactMessages ++
          [⟨s.currentContactMessageId, ins.name, ins.email, ins.subject, ins.message, now,
            ins.portfolioId⟩] := hc
      rcases List.mem_append.mp hc2 with hmem | hmem
      · exact Or.inl hmem
      · right
        rw [List.mem_singleton] at hmem
        rw [hmem]

theorem contact_createdAt_server_stamped_witness :
    postContactHandler MemStorage.empty rawWithClientDate "2024-05-05T12:00:00.000Z" =
      postContactHandler MemStorage.empty rawNoClientDate "2024-05-05T12:00:00.000Z" ∧
    ∀ c ∈ (postContactHandler MemStorage.empty rawWithClientDate
        "2024-05-05T12:00:00.000Z").2.contactMessages,
      c ∈ MemStorage.empty.contactMessages ∨ c.createdAt = "2024-05-05T12:00:00.000Z" :=
  contact_createdAt_server_stamped MemStorage.empty rawWithClientDate rawNoClientDate
    "2024-05-05T12:00:00.000Z" (by decide)

/-! ### Claim C7 -/

/-- Claim C7 (amended): the GET /api/portfolio/:id handler answers 400
exactly when JavaScript parseInt finds no integer prefix in the id
parameter, 404 when the parsed id has no stored portfolio, and 200 with
the portfolio data otherwise; a decimal-numeral id parses to itself. -/
theorem getPortfolio_status_cases (s : MemStorage) (idParam : String) :
    (parseIntJS idParam = none →
      getPortfolioHandler s idParam = ⟨400, .msg "Invalid portfolio ID"⟩) ∧
    (∀ pid, parseIntJS idParam = some pid → s.getPortfolio pid = none →
      getPortfolioHandler s idParam = ⟨404, .msg "Portfolio not found"⟩) ∧
    (∀ pid p, parseIntJS idParam = some pid → s.getPortfolio pid = some p →
      getPortfolioHandler s idParam = ⟨200, .dataBody p.data⟩) ∧
    (∀ n : Nat, idParam = decStr n → parseIntJS idParam = some (n : Int)) := by
  refine ⟨?_, ?_, ?_, ?_⟩
  · intro h
    unfold getPortfolioHandler
    rw [h]
  · intro pid h1 h2
    unfold getPortfolioHandler
    rw [h1]
    simp [h2]
  · intro pid p h1 h2
    unfold getPortfolioHandler
    rw [h1]
    simp [h2]
  · intro n h
    rw [h]
    exact parseIntJS_decStr n

/-- Claim C7 counterexample: the id parameter 3x is not an integer, yet
parseInt reads its digit prefix, so the handler answers 404 on an empty
store instead of the claimed 400. -/
theorem getPortfolio_nonIntegerId_counterexample :
    parseIntJS "3x" = some 3 ∧
    getPortfolioHandler MemStorage.empty "3x" = ⟨404, .msg "Portfolio not found"⟩ ∧
    getPortfolioHandler MemStorage.empty "3x" ≠ ⟨400, .msg "Invalid portfolio ID"⟩ := by
  decide

theorem getPortfolio_status_cases_witness :
    getPortfolioHandler MemStorage.empty "abc" = ⟨400, .msg "Invalid portfolio ID"⟩ ∧
    getPortfolioHandler MemStorage.empty "999999" = ⟨404, .msg "Portfolio not found"⟩ ∧
    getPortfolioHandler storeWithOne "1" = ⟨200, .dataBody dEx⟩ ∧
    parseIntJS (decStr 7) = some 7 :=
  ⟨(getPortfolio_status_cases MemStorage.empty "abc").1 (by decide),
   (getPortfolio_status_cases MemStorage.empty "999999").2.1 999999 (by decide) (by decide),
   (getPortfolio_status_cases storeWithOne "1").2.2.1 1 ⟨1, 1, dEx⟩ (by decide) (by decide),
   (getPortfolio_status_cases storeWithOne (decStr 7)).2.2.2 7 rfl⟩

/-! ### Claim C10 -/

/-- Claim C10: a drag-end event with no destination or with destination
equal to source leaves the displayed project list, including every order
value, unchanged, and triggers no persistence call. -/
theorem dragEnd_noop (l : List Project) (r : DropResult)
    (h : r.destinationIndex = none ∨ r.destinationIndex = some r.sourceIndex) :
    handleDragEnd l r = (l, none) := by
  rcases h with h | h
  · unfold handleDragEnd
    rw [h]
  · unfold handleDragEnd
    rw [h]
    simp

theorem dragEnd_noop_witness :
    handleDragEnd [projEx] ⟨0, none⟩ = ([projEx], none) ∧
    handleDragEnd [projEx] ⟨0, some 0⟩ = ([projEx], none) :=
  ⟨dragEnd_noop [projEx] ⟨0, none⟩ (Or.inl rfl),
   dragEnd_noop [projEx] ⟨0, some 0⟩ (Or.inr rfl)⟩

/-! ### Claim C2 -/

/-- Claim C2 (amended): submitting two valid payloads in sequence from the
empty store yields the same portfolio id 1 in both responses; the first
response has status 201 and message Portfolio created successfully, the
second status 200 and message Portfolio updated successfully, and the
stored portfolio afterwards holds exactly the second payload with no field
of the first surviving. -/
theorem upsert_twice_full_replace (d1 d2 : PortfolioData)
    (h1 : portfolioValid d1 = true) (h2 : portfolioValid d2 = true) :
    ∃ s1 s2,
      postPortfolioHandler MemStorage.empty d1 =
        (⟨201, .idMsg (some 1) "Portfolio created successfully"⟩, s1) ∧
      postPortfolioHandler s1 d2 =
        (⟨200, .idMsg (some 1) "Portfolio updated successfully"⟩, s2) ∧
      s2.portfolios = [⟨1, 1, d2⟩] := by
  refine ⟨⟨[⟨1, "defaultuser", "defaultpassword"⟩], [⟨1, 1, d1⟩], [], 2, 2, 1⟩,
    ⟨[⟨1, "defaultuser", "defaultpassword"⟩], [⟨1, 1, d2⟩], [], 2, 2, 1⟩, ?_, ?_, rfl⟩
  · unfold postPortfolioHandler
    rw [if_pos h1]
    rfl
  · unfold postPortfolioHandler
    rw [if_pos h2]
    rfl

/-- Claim C2 counterexample: the success messages are the strings Portfolio
created successfully and Portfolio updated successfully, not the strings
created and updated stated by the claim. -/
theorem upsert_message_counterexample :
    (postPortfolioHandler MemStorage.empty dEx).1 =
      ⟨201, .idMsg (some 1) "Portfolio created successfully"⟩ ∧
    (postPortfolioHandler MemStorage.empty dEx).1 ≠ ⟨201, .idMsg (some 1) "created"⟩ ∧
    (postPortfolioHandler (postPortfolioHandler MemStorage.empty dEx).2 dEx2).1 =
      ⟨200, .idMsg (some 1) "Portfolio updated successfully"⟩ ∧
    (postPortfolioHandler (postPortfolioHandler MemStorage.empty dEx).2 dEx2).1 ≠
      ⟨200, .idMsg (some 1) "updated"⟩ := by
  decide

theorem upsert_twice_full_replace_witness :
    ∃ s1 s2,
      postPortfolioHandler MemStorage.empty dEx =
        (⟨201, .idMsg (some 1) "Portfolio created successfully"⟩, s1) ∧
      postPortfolioHandler s1 dEx2 =
        (⟨200, .idMsg (some 1) "Portfolio updated successfully"⟩, s2) ∧
      s2.portfolios = [⟨1, 1, dEx2⟩] :=
  upsert_twice_full_replace dEx dEx2 (by decide) (by decide)

/-! ### Claim C8 -/

/-- The default user record provisioned by the upsert path. -/
def defaultUserRec : UserRec := ⟨1, "defaultuser", "defaultpassword"⟩

/-- Shape of every state reachable from the empty store by POST
/api/portfolio handler executions. -/
def ReachInv (s : MemStorage) : Prop :=
  (s.users = [] ∧ s.portfolios = [] ∧ s.currentUserId = 1 ∧ s.currentPortfolioId = 1) ∨
  (s.users = [defaultUserRec] ∧ s.currentUserId = 2 ∧
    ((s.portfolios = [] ∧ s.currentPortfolioId = 1) ∨
     (∃ d0, s.portfolios = [⟨1, 1, d0⟩] ∧ s.currentPortfolioId = 2)))

theorem ReachInv_post (s : MemStorage) (d : PortfolioData) (h : ReachInv s) :
    ReachInv (postPortfolioHandler s d).2 := by
  by_cases hv : portfolioValid d = true
  case neg =>
    unfold postPortfolioHandler
    rw [if_neg hv]
    exact h
  case pos =>
    unfold postPortfolioHandler
    rw [if_pos hv]
    rcases h with ⟨hu, hp, hcu, hcp⟩ | ⟨hu, hcu, hrest⟩
    · right
      refine ⟨?_, ?_, Or.inr ⟨d, ?_, ?_⟩⟩ <;>
        simp [MemStorage.getUserByUsername, MemStorage.createUser,
          MemStorage.getPortfolioByUserId, MemStorage.createPortfolio, hu, hp, hcu, hcp,
          defaultUserRec]
    · rcases hrest with ⟨hp, hcp⟩ | ⟨d0, hp, hcp⟩
      · right
        refine ⟨?_, ?_, Or.inr ⟨d, ?_, ?_⟩⟩ <;>
          simp [MemStorage.getUserByUsername, MemStorage.getPortfolioByUserId,
            MemStorage.createPortfolio, hu, hp, hcu, hcp, defaultUserRec]
      · right
        refine ⟨?_, ?_, Or.inr ⟨d, ?_, ?_⟩⟩ <;>
          simp [MemStorage.getUserByUsername, MemStorage.getPortfolioByUserId,
            MemStorage.updatePortfolio, hu, hp, hcu, hcp, defaultUserRec]

theorem ReachInv_postMany : ∀ (ds : List PortfolioData) (s : MemStorage),
    ReachInv s → ReachInv (postMany s ds)
  | [], _, h => h
  | d :: ds, s, h => ReachInv_postMany ds _ (ReachInv_post s d h)

/-- Claim C8: in every state of the data store reachable from the empty
store by POST /api/portfolio handler executions, there is at most one
portfolio record per userId. -/
theorem at_most_one_portfolio_per_user (ds : List PortfolioData) (uid : Int) :
    ((postMany MemStorage.empty ds).portfolios.filter
      (fun p => p.userId == uid)).length ≤ 1 := by
  have hinv := ReachInv_postMany ds MemStorage.empty (Or.inl ⟨rfl, rfl, rfl, rfl⟩)
  rcases hinv with ⟨-, hp, -, -⟩ | ⟨-, -, ⟨hp, -⟩ | ⟨d0, hp, -⟩⟩
  · simp [hp]
  · simp [hp]
  · rw [hp]
    exact le_trans (List.length_filter_le _ _) (by simp)

/-! ### Claim C9 -/

theorem map_eraseIdx {α β : Type} (f : α → β) :
    ∀ (l : List α) (n : Nat), (l.map f).eraseIdx n = (l.eraseIdx n).map f
  | [], _ => by simp
  | _ :: _, 0 => rfl
  | a :: t, n + 1 => by
    simp only [List.map_cons, List.eraseIdx_cons_succ]
    rw [map_eraseIdx f t n]

theorem reassignOrdersFrom_length : ∀ (n : Nat) (l : List Project),
    (reassignOrdersFrom n l).length = l.length
  | _, [] => rfl
  | n, p :: ps => by
    simp only [reassignOrdersFrom, List.length_cons, reassignOrdersFrom_length (n + 1) ps]

theorem reassignOrdersFrom_getElem_order :
    ∀ (l : List Project) (n k : Nat) (hk : k < (reassignOrdersFrom n l).length),
      ((reassignOrdersFrom n l)[k]).order = some ((n + k : Nat) : Int)
  | p :: ps, n, 0, hk => rfl
  | p :: ps, n, k + 1, hk => by
    have hk2 : k < (reassignOrdersFrom (n + 1) ps).length := by
      have hk3 := hk
      simp only [reassignOrdersFrom, List.length_cons] at hk3
      omega
    have ih := reassignOrdersFrom_getElem_order ps (n + 1) k hk2
    have hidx : (reassignOrdersFrom n (p :: ps))[k + 1] =
        (reassignOrdersFrom (n + 1) ps)[k] := by
      simp [reassignOrdersFrom]
    rw [hidx, ih, show n + 1 + k = n + (k + 1) from by omega]

theorem map_payload_reassignFrom : ∀ (n : Nat) (l : List Project),
    (reassignOrdersFrom n l).map payloadOf = l.map payloadOf
  | _, [] => rfl
  | n, p :: ps => by
    simp only [reassignOrdersFrom, List.map_cons, map_payload_reassignFrom (n + 1) ps]
    rfl

/-- Claim C9: a drag from index i to a different index j produces the list
with that element moved from i to j, other elements keeping their relative
order, every order value equal to the new index, and resubmitting the list
through the upsert path stores data.projects in exactly that sequence. -/
theorem reorder_moves_and_persists (l : List Project) (i j : Nat) (d : PortfolioData)
    (s : MemStorage) (hwf : s.WF) (hne : i ≠ j) (hi : i < l.length) (hj : j < l.length)
    (hv : portfolioValid { d with projects := (handleDragEnd l ⟨i, some j⟩).1 } = true) :
    ∃ u, handleDragEnd l ⟨i, some j⟩ = (u, some u) ∧
      u = reassignOrders ((l.eraseIdx i).insertIdx j l[i]) ∧
      u.length = l.length ∧
      (∀ k, (hk : k < u.length) → u[k].order = some (k : Int)) ∧
      (u.map payloadOf).eraseIdx j = (l.map payloadOf).eraseIdx i ∧
      (u.map payloadOf)[j]? = (l.map payloadOf)[i]? ∧
      ∃ st pid m s2, postPortfolioHandler s { d with projects := u } =
          (⟨st, .idMsg (some pid) m⟩, s2) ∧
        (s2.getPortfolio pid).map (fun pr => pr.data) = some { d with projects := u } := by
  have hbeq : (j == i) = false := beq_eq_false_iff_ne.mpr (Ne.symm hne)
  have hget : l[i]? = some l[i] := List.getElem?_eq_getElem hi
  have hlen_erase : (l.eraseIdx i).length = l.length - 1 :=
    List.length_eraseIdx_of_lt hi
  have hj' : j ≤ (l.eraseIdx i).length := by omega
  have hlen_ins : ((l.eraseIdx i).insertIdx j l[i]).length = l.length := by
    rw [List.length_insertIdx _ _ hj', hlen_erase]
    omega
  have hrun : handleDragEnd l ⟨i, some j⟩ =
      (reassignOrders ((l.eraseIdx i).insertIdx j l[i]),
       some (reassignOrders ((l.eraseIdx i).insertIdx j l[i]))) := by
    unfold handleDragEnd jsMove
    simp only [hbeq, hget]
    simp
  refine ⟨reassignOrders ((l.eraseIdx i).insertIdx j l[i]), hrun, rfl, ?_, ?_, ?_, ?_, ?_⟩
  · show (reassignOrdersFrom 0 ((l.eraseIdx i).insertIdx j l[i])).length = l.length
    rw [reassignOrdersFrom_length, hlen_ins]
  · intro k hk
    have hres := reassignOrdersFrom_getElem_order ((l.eraseIdx i).insertIdx j l[i]) 0 k hk
    simpa using hres
  · show ((reassignOrdersFrom 0 ((l.eraseIdx i).insertIdx j l[i])).map payloadOf).eraseIdx j =
      (l.map payloadOf).eraseIdx i
    rw [map_payload_reassignFrom, map_eraseIdx, List.eraseIdx_insertIdx, map_eraseIdx]
  · show ((reassignOrdersFrom 0 ((l.eraseIdx i).insertIdx j l[i])).map payloadOf)[j]? =
      (l.map payloadOf)[i]?
    rw [map_payload_reassignFrom]
    rw [List.getElem?_map, List.getElem?_map]
    have hjM : j < ((l.eraseIdx i).insertIdx j l[i]).length := by omega
    rw [List.getElem?_eq_getElem hjM, List.getElem_insertIdx_self _ _ _ hj', hget]
  · have hv2 : portfolioValid
        { d with projects := reassignOrders ((l.eraseIdx i).insertIdx j l[i]) } = true := by
      rw [hrun] at hv
      exact hv
    obtain ⟨st, pid, m, s2, uid, heq, hpos, hget2⟩ := post_roundtrip s _ hwf hv2
    exact ⟨st, pid, m, s2, heq, by rw [hget2]; rfl⟩

/-- The three projects of the reorder example. -/
def projA : Project := ⟨"A", none, none, "https://github.com/u/a", some 0⟩

/-- Second project of the reorder example. -/
def projB : Project := ⟨"B", none, none, "https://github.com/u/b", some 1⟩

/-- Third project of the reorder example. -/
def projC : Project := ⟨"C", none, none, "https://github.com/u/c", some 2⟩

/-- Payload holding the three reorder example projects. -/
def dABC : PortfolioData := { dEx with projects := [projA, projB, projC] }

theorem reorder_moves_and_persists_witness :
    handleDragEnd [projA, projB, projC] ⟨2, some 0⟩ =
      ([{ projC with order := some 0 }, { projA with order := some 1 },
        { projB with order := some 2 }],
       some [{ projC with order := some 0 }, { projA with order := some 1 },
        { projB with order := some 2 }]) ∧
    ∃ u, handleDragEnd [projA, projB, projC] ⟨2, some 0⟩ = (u, some u) ∧
      u = reassignOrders (([projA, projB, projC].eraseIdx 2).insertIdx 0
        ([projA, projB, projC])[2]) ∧
      u.length = ([projA, projB, projC] : List Project).length ∧
      (∀ k, (hk : k < u.length) → u[k].order = some (k : Int)) ∧
      (u.map payloadOf).eraseIdx 0 = (([projA, projB, projC]).map payloadOf).eraseIdx 2 ∧
      (u.map payloadOf)[0]? = (([projA, projB, projC]).map payloadOf)[2]? ∧
      ∃ st pid m s2, postPortfolioHandler MemStorage.empty { dABC with projects := u } =
          (⟨st, .idMsg (some pid) m⟩, s2) ∧
        (s2.getPortfolio pid).map (fun pr => pr.data) = some { dABC with projects := u } :=
  ⟨by decide,
   reorder_moves_and_persists [projA, projB, projC] 2 0 dABC MemStorage.empty
     ⟨by decide, by simp [MemStorage.empty]⟩ (by decide) (by decide) (by decide) (by decide)⟩

end PortfolioApp
